import Mathlib

/-!
The resource adapter of pkg/ext/delegate.go.

A shallow embedding of the generic `delegate` type, which bridges the
apiserver storage interfaces and the package's own `Store` interface, and of
the `watcher` handle with its forwarding goroutine.

* Go values of an interface type that may be nil are `Option`s.
* A Go result pair `(v, err)` is a Lean pair whose second component is an
  `Option GoError` (`none` is the nil error).
* Every call into the store or into a host-supplied hook is appended to a call
  log carried by the `World`, next to the state of the store itself.
* A run-time panic is an explicit `Outcome.panicked`.
* The forwarding goroutine and the consumer of a watch are a transition
  system (`Bridge`, `step`) over the Go semantics of an unbuffered channel.
-/

set_option linter.dupNamespace false

namespace Ext

/-! ## Values -/

/-- Go error values: the ones built by `fmt.Errorf` in this file, and the ones
produced outside of it (store, hooks, scheme). -/
inductive GoError where
  | errorf (msg : String)
  | wrapf (msg : String) (inner : GoError)
  | external (code : Nat)
  deriving DecidableEq, Repr

/-- The result of running Go code that may panic instead of returning. -/
inductive Outcome (α : Type) where
  | returned (v : α)
  | panicked (msg : String)
  deriving DecidableEq, Repr

/-- A value of the interface type `runtime.Object`: nil, a value whose dynamic
type is the resource type `T`, one whose dynamic type is the list type `TList`,
or a value of some other dynamic type. -/
inductive RuntimeObject (T TList : Type) where
  | nil
  | ofT (t : T)
  | ofTList (l : TList)
  | foreign (tag : Nat)
  deriving DecidableEq, Repr

/-- The caller identity (`user.Info`). -/
structure UserInfo where
  name : String
  deriving DecidableEq, Repr

/-- The authorizer handle (`authorizer.Authorizer`), never called here. -/
structure Authorizer where
  id : Nat
  deriving DecidableEq, Repr

/-- The ambient request context (`context.Context`): the caller identity it
carries, if any, and whether it is already cancelled. -/
structure ParentContext where
  user : Option UserInfo
  cancelled : Bool
  deriving DecidableEq, Repr

/-- `request.UserFrom`: the identity stored in the context and whether there
is one. -/
def UserFrom (ctx : ParentContext) : Option UserInfo × Bool :=
  match ctx.user with
  | some u => (some u, true)
  | none => (none, false)

/-- Modelled from the spec: the `Context` struct of the package (declared
outside delegate.go), the per-call bundle of the ambient context, the caller
identity and the authorizer handle. All three fields are interface values, nil
in the zero value `Context{}`. -/
structure Context where
  Context : Option ParentContext
  User : Option UserInfo
  Authorizer : Option Authorizer
  deriving DecidableEq, Repr

/-- `metav1.GetOptions`. -/
structure GetOptions where
  ResourceVersion : String := ""
  deriving DecidableEq, Repr

/-- `metav1.ListOptions`, the external list options. -/
structure ListOptions where
  LabelSelector : String := ""
  FieldSelector : String := ""
  Watch : Bool := false
  AllowWatchBookmarks : Bool := false
  ResourceVersion : String := ""
  ResourceVersionMatch : String := ""
  TimeoutSeconds : Option Int := none
  Limit : Int := 0
  Continue : String := ""
  deriving DecidableEq, Repr

/-- `metainternalversion.ListOptions`, the internal list options. -/
structure InternalListOptions where
  LabelSelector : Option String := none
  FieldSelector : Option String := none
  Watch : Bool := false
  AllowWatchBookmarks : Bool := false
  ResourceVersion : String := ""
  ResourceVersionMatch : String := ""
  TimeoutSeconds : Option Int := none
  Limit : Int := 0
  Continue : String := ""
  deriving DecidableEq, Repr

/-- `metav1.CreateOptions`. -/
structure CreateOptions where
  DryRun : List String := []
  FieldManager : String := ""
  FieldValidation : String := ""
  deriving DecidableEq, Repr

/-- `metav1.UpdateOptions`. -/
structure UpdateOptions where
  DryRun : List String := []
  FieldManager : String := ""
  FieldValidation : String := ""
  deriving DecidableEq, Repr

/-- `metav1.DeleteOptions`. -/
structure DeleteOptions where
  GracePeriodSeconds : Option Int := none
  PropagationPolicy : Option String := none
  DryRun : List String := []
  deriving DecidableEq, Repr

/-- Modelled from the spec: the `WatchEvent` struct of the package (declared
outside delegate.go), a domain event with its kind `Event` and its `Object`. -/
structure WatchEvent (T : Type) where
  Event : String
  Object : T
  deriving DecidableEq, Repr

/-- `watch.Event`, the protocol event: `Type` and `Object`. -/
structure Event (T TList : Type) where
  type : String
  Object : RuntimeObject T TList
  deriving DecidableEq, Repr

/-- The channel `<-chan WatchEvent[T]` handed out by the store: the events the
producer will send on it, in order, and whether the producer closes it after
the last one. A nil channel is a feed with no event that is never closed. -/
structure Feed (T : Type) where
  events : List (WatchEvent T)
  closes : Bool
  deriving DecidableEq, Repr

/-- Modelled from the spec: the `Store` interface of the package (declared
outside delegate.go), over the state `σ` of the store. Each method takes the
state and returns its Go result pair with the next state. -/
structure Store (T TList σ : Type) where
  Get : Context → String → Option GetOptions → σ → (T × Option GoError) × σ
  List : Context → Option ListOptions → σ → (TList × Option GoError) × σ
  Create : Context → T → Option CreateOptions → σ → (T × Option GoError) × σ
  Update : Context → T → Option UpdateOptions → σ → (T × Option GoError) × σ
  Delete : Context → String → Option DeleteOptions → σ → Option GoError × σ
  Watch : Context → Option ListOptions → σ → (Feed T × Option GoError) × σ

/-- `rest.ValidateObjectFunc`. -/
abbrev ValidateObjectFunc (T TList σ : Type) :=
  Context → RuntimeObject T TList → σ → Option GoError × σ

/-- `rest.ValidateObjectUpdateFunc`. -/
abbrev ValidateObjectUpdateFunc (T TList σ : Type) :=
  Context → RuntimeObject T TList → RuntimeObject T TList → σ → Option GoError × σ

/-- The method `UpdatedObject` of a `rest.UpdatedObjectInfo`. -/
abbrev UpdatedObjectInfo (T TList σ : Type) :=
  Context → RuntimeObject T TList → σ → (RuntimeObject T TList × Option GoError) × σ

/-- One call made by the adapter into the store or into a host-supplied hook,
with its arguments. -/
inductive Call (T TList : Type) where
  | storeGet (ctx : Context) (name : String) (options : Option GetOptions)
  | storeList (ctx : Context) (options : Option ListOptions)
  | storeCreate (ctx : Context) (obj : T) (options : Option CreateOptions)
  | storeUpdate (ctx : Context) (obj : T) (options : Option UpdateOptions)
  | storeDelete (ctx : Context) (name : String) (options : Option DeleteOptions)
  | storeWatch (ctx : Context) (options : Option ListOptions)
  | createValidation (ctx : Context) (obj : RuntimeObject T TList)
  | updateValidation (ctx : Context) (obj old : RuntimeObject T TList)
  | updatedObject (ctx : Context) (old : RuntimeObject T TList)
  deriving DecidableEq, Repr

/-- Whether a call is a call of a method of the store. -/
def Call.isStore {T TList : Type} : Call T TList → Bool
  | .storeGet _ _ _ => true
  | .storeList _ _ => true
  | .storeCreate _ _ _ => true
  | .storeUpdate _ _ _ => true
  | .storeDelete _ _ _ => true
  | .storeWatch _ _ => true
  | _ => false

/-- Whether a call is `store.Create` or `store.Update`. -/
def Call.isStoreWrite {T TList : Type} : Call T TList → Bool
  | .storeCreate _ _ _ => true
  | .storeUpdate _ _ _ => true
  | _ => false

/-- What lies outside the adapter: the state of the store (and of the hooks)
and the log of the calls made so far, oldest first. -/
structure World (T TList σ : Type) where
  state : σ
  calls : List (Call T TList)

/-- Modelled from the spec: the package variable `scheme` (declared outside
delegate.go), of which only `Convert` from internal to external list options
is used: it fills the given `out` value and may fail. -/
structure Scheme where
  Convert : Option InternalListOptions → ListOptions → ListOptions × Option GoError

/-- The `delegate` struct. `scheme` stands for the package variable. -/
structure delegate (T TList σ : Type) where
  gvk : String × String × String
  gvr : String × String × String
  singularName : String
  store : Store T TList σ
  authorizer : Option Authorizer
  scheme : Scheme

variable {T TList σ : Type}

/-! ## Logged calls -/

/-- Calls `store.Get` and logs the call. -/
def World.storeGet (w : World T TList σ) (st : Store T TList σ) (ctx : Context)
    (name : String) (options : Option GetOptions) :
    (T × Option GoError) × World T TList σ :=
  ((st.Get ctx name options w.state).1,
    { state := (st.Get ctx name options w.state).2,
      calls := w.calls ++ [.storeGet ctx name options] })

/-- Calls `store.List` and logs the call. -/
def World.storeList (w : World T TList σ) (st : Store T TList σ) (ctx : Context)
    (options : Option ListOptions) : (TList × Option GoError) × World T TList σ :=
  ((st.List ctx options w.state).1,
    { state := (st.List ctx options w.state).2,
      calls := w.calls ++ [.storeList ctx options] })

/-- Calls `store.Create` and logs the call. -/
def World.storeCreate (w : World T TList σ) (st : Store T TList σ) (ctx : Context)
    (obj : T) (options : Option CreateOptions) : (T × Option GoError) × World T TList σ :=
  ((st.Create ctx obj options w.state).1,
    { state := (st.Create ctx obj options w.state).2,
      calls := w.calls ++ [.storeCreate ctx obj options] })

/-- Calls `store.Update` and logs the call. -/
def World.storeUpdate (w : World T TList σ) (st : Store T TList σ) (ctx : Context)
    (obj : T) (options : Option UpdateOptions) : (T × Option GoError) × World T TList σ :=
  ((st.Update ctx obj options w.state).1,
    { state := (st.Update ctx obj options w.state).2,
      calls := w.calls ++ [.storeUpdate ctx obj options] })

/-- Calls `store.Delete` and logs the call. -/
def World.storeDelete (w : World T TList σ) (st : Store T TList σ) (ctx : Context)
    (name : String) (options : Option DeleteOptions) : Option GoError × World T TList σ :=
  ((st.Delete ctx name options w.state).1,
    { state := (st.Delete ctx name options w.state).2,
      calls := w.calls ++ [.storeDelete ctx name options] })

/-- Calls `store.Watch` and logs the call. -/
def World.storeWatch (w : World T TList σ) (st : Store T TList σ) (ctx : Context)
    (options : Option ListOptions) : (Feed T × Option GoError) × World T TList σ :=
  ((st.Watch ctx options w.state).1,
    { state := (st.Watch ctx options w.state).2,
      calls := w.calls ++ [.storeWatch ctx options] })

/-- Calls a create validation hook and logs the call. -/
def World.callCreateValidation (w : World T TList σ) (f : ValidateObjectFunc T TList σ)
    (ctx : Context) (obj : RuntimeObject T TList) : Option GoError × World T TList σ :=
  ((f ctx obj w.state).1,
    { state := (f ctx obj w.state).2, calls := w.calls ++ [.createValidation ctx obj] })

/-- Calls an update validation hook and logs the call. -/
def World.callUpdateValidation (w : World T TList σ) (f : ValidateObjectUpdateFunc T TList σ)
    (ctx : Context) (obj old : RuntimeObject T TList) : Option GoError × World T TList σ :=
  ((f ctx obj old w.state).1,
    { state := (f ctx obj old w.state).2, calls := w.calls ++ [.updateValidation ctx obj old] })

/-- Calls `objInfo.UpdatedObject` and logs the call. -/
def World.callUpdatedObject (w : World T TList σ) (f : UpdatedObjectInfo T TList σ)
    (ctx : Context) (old : RuntimeObject T TList) :
    (RuntimeObject T TList × Option GoError) × World T TList σ :=
  ((f ctx old w.state).1,
    { state := (f ctx old w.state).2, calls := w.calls ++ [.updatedObject ctx old] })

/-! ## The adapter -/

/-- The error of `makeContext` for a context without identity. -/
def MissingIdentity : GoError := .errorf "missing user info"

/-- The error of `Update` for a candidate that is not of the resource type. -/
def InternalTypeMismatch : GoError := .errorf "wrong expected type"

/-- The method `makeContext`: the execution context of a call, or the zero
context and an error when the ambient context carries no identity. -/
def delegate.makeContext (s : delegate T TList σ) (parentCtx : ParentContext) :
    Context × Option GoError :=
  match UserFrom parentCtx with
  | (_, false) => ({ Context := none, User := none, Authorizer := none },
      some (.errorf "missing user info"))
  | (userInfo, true) =>
    ({ Context := some parentCtx, User := userInfo, Authorizer := s.authorizer }, none)

/-- The function `convertListOptions`. -/
def convertListOptions (scheme : Scheme) (options : Option InternalListOptions) :
    Option ListOptions × Option GoError :=
  match scheme.Convert options {} with
  | (_, some err) => (none, some (.wrapf "convert list options: " err))
  | (out, none) => (some out, none)

/-- The method `List`. -/
def delegate.List (s : delegate T TList σ) (parentCtx : ParentContext)
    (internaloptions : Option InternalListOptions) (w : World T TList σ) :
    (RuntimeObject T TList × Option GoError) × World T TList σ :=
  match s.makeContext parentCtx with
  | (_, some err) => ((.nil, some err), w)
  | (ctx, none) =>
    match convertListOptions s.scheme internaloptions with
    | (_, some err) => ((.nil, some err), w)
    | (options, none) =>
      ((.ofTList (w.storeList s.store ctx options).1.1, (w.storeList s.store ctx options).1.2),
        (w.storeList s.store ctx options).2)

/-- The method `Get`. -/
def delegate.Get (s : delegate T TList σ) (parentCtx : ParentContext) (name : String)
    (options : Option GetOptions) (w : World T TList σ) :
    (RuntimeObject T TList × Option GoError) × World T TList σ :=
  match s.makeContext parentCtx with
  | (_, some err) => ((.nil, some err), w)
  | (ctx, none) =>
    ((.ofT (w.storeGet s.store ctx name options).1.1, (w.storeGet s.store ctx name options).1.2),
      (w.storeGet s.store ctx name options).2)

/-- The method `Delete`. The hook `deleteValidation` is not used. -/
def delegate.Delete (s : delegate T TList σ) (parentCtx : ParentContext) (name : String)
    (_deleteValidation : Option (ValidateObjectFunc T TList σ))
    (options : Option DeleteOptions) (w : World T TList σ) :
    (RuntimeObject T TList × Bool × Option GoError) × World T TList σ :=
  match s.makeContext parentCtx with
  | (_, some err) => ((.nil, false, some err), w)
  | (ctx, none) =>
    ((.nil, true, (w.storeDelete s.store ctx name options).1),
      (w.storeDelete s.store ctx name options).2)

/-- The method `Create`. The unchecked type assertion `obj.(T)` is evaluated
before `store.Create` is called, and panics when `obj` is not a `T`. -/
def delegate.Create (s : delegate T TList σ) (parentCtx : ParentContext)
    (obj : RuntimeObject T TList) (createValidation : Option (ValidateObjectFunc T TList σ))
    (options : Option CreateOptions) (w : World T TList σ) :
    Outcome (RuntimeObject T TList × Option GoError) × World T TList σ :=
  match s.makeContext parentCtx with
  | (_, some err) => (.returned (.nil, some err), w)
  | (ctx, none) =>
    let validated : Option GoError × World T TList σ :=
      match createValidation with
      | some f => w.callCreateValidation f ctx obj
      | none => (none, w)
    match validated with
    | (some err, w1) => (.returned (obj, some err), w1)
    | (none, w1) =>
      match obj with
      | .ofT t =>
        (.returned (.ofT (w1.storeCreate s.store ctx t options).1.1,
            (w1.storeCreate s.store ctx t options).1.2),
          (w1.storeCreate s.store ctx t options).2)
      | _ => (.panicked "interface conversion", w1)

/-- The method `Update`. The hook `createValidation` and the flag
`forceAllowCreate` are not used; a nil `objInfo` panics on its method call. -/
def delegate.Update (s : delegate T TList σ) (parentCtx : ParentContext) (name : String)
    (objInfo : Option (UpdatedObjectInfo T TList σ))
    (_createValidation : Option (ValidateObjectFunc T TList σ))
    (updateValidation : Option (ValidateObjectUpdateFunc T TList σ))
    (_forceAllowCreate : Bool) (options : Option UpdateOptions) (w : World T TList σ) :
    Outcome (RuntimeObject T TList × Bool × Option GoError) × World T TList σ :=
  match s.makeContext parentCtx with
  | (_, some err) => (.returned (.nil, false, some err), w)
  | (ctx, none) =>
    match w.storeGet s.store ctx name (some {}) with
    | ((_, some err), w1) => (.returned (.nil, false, some err), w1)
    | ((oldObj, none), w1) =>
      match objInfo with
      | none => (.panicked "nil pointer dereference", w1)
      | some info =>
        match w1.callUpdatedObject info ctx (.ofT oldObj) with
        | ((_, some err), w2) => (.returned (.nil, false, some err), w2)
        | ((newObj, none), w2) =>
          match newObj with
          | .ofT newT =>
            let validated : Option GoError × World T TList σ :=
              match updateValidation with
              | some f => w2.callUpdateValidation f ctx (.ofT newT) (.ofT oldObj)
              | none => (none, w2)
            match validated with
            | (some err, w3) => (.returned (.nil, false, some err), w3)
            | (none, w3) =>
              match w3.storeUpdate s.store ctx newT options with
              | ((_, some err), w4) => (.returned (.nil, false, some err), w4)
              | ((newT1, none), w4) => (.returned (.ofT newT1, false, none), w4)
          | _ => (.returned (.nil, false, some (.errorf "wrong expected type")), w2)

/-! ## The watch handle and the forwarding goroutine -/

/-- The state of a channel made by `make(chan watch.Event)`: it is unbuffered,
so all there is to know is whether it has been closed. -/
structure Chan where
  closed : Bool
  deriving DecidableEq, Repr

/-- The builtin `close`: closing a closed channel panics. -/
def Chan.close (c : Chan) : Outcome Chan :=
  if c.closed then .panicked "close of closed channel" else .returned { closed := true }

/-- The `watcher` struct. -/
structure watcher where
  ch : Chan
  deriving DecidableEq, Repr

/-- The method `Stop` of the handle: `close(w.ch)`. -/
def watcher.Stop (w : watcher) : Outcome watcher :=
  match w.ch.close with
  | .returned c => .returned { ch := c }
  | .panicked msg => .panicked msg

/-- The method `ResultChan` of the handle. -/
def watcher.ResultChan (w : watcher) : Chan :=
  w.ch

/-- Who runs a statement: the consumer holding the handle, or the forwarding
goroutine. -/
inductive Actor where
  | consumer
  | task
  deriving DecidableEq, Repr

/-- Where the forwarding goroutine stands: before `s.store.Watch`, at the
`range` over `eventCh`, blocked in the send `w.ch <- ...` of one translated
event, or returned. -/
inductive Pc (T TList : Type) where
  | start
  | ranging (eventCh : Feed T)
  | sending (ev : Event T TList) (eventCh : Feed T)
  | returned
  deriving DecidableEq, Repr

/-- One watch: the handle `w` shared by the consumer and the goroutine, the
goroutine with its captured `ctx`, what the consumer has read from
`ResultChan()` and whether it has seen the channel closed, who closed the
channel, how often `Stop()` was called, and the panic that ended the process,
if any. -/
structure Bridge (T TList : Type) where
  ctx : Context
  w : watcher
  pc : Pc T TList
  received : List (Event T TList)
  endOfStream : Bool
  closes : List Actor
  stops : Nat
  panic : Option String
  deriving DecidableEq, Repr

/-- The watch right after `Watch` has made the handle with its open channel
and has started the goroutine, which captures `ctx`. -/
def Bridge.fresh (T TList : Type) (ctx : Context) : Bridge T TList :=
  { ctx := ctx, w := { ch := { closed := false } }, pc := .start, received := [],
    endOfStream := false, closes := [], stops := 0, panic := none }

/-- The method `Watch`: the handle together with the goroutine it starts, or
no handle, no goroutine and an error. The argument `options` is not used. -/
def delegate.Watch (s : delegate T TList σ) (parentCtx : ParentContext)
    (_options : Option InternalListOptions) (w : World T TList σ) :
    (Option (Bridge T TList) × Option GoError) × World T TList σ :=
  match s.makeContext parentCtx with
  | (_, some err) => ((none, some err), w)
  | (ctx, none) =>
    ((some (Bridge.fresh T TList ctx), none), w)

/-- What can happen next in a watch: the goroutine runs to its next channel
operation, the consumer receives from `ResultChan()`, the consumer calls
`Stop()`. -/
inductive Action where
  | task
  | recv
  | stop
  deriving DecidableEq, Repr

/-- The protocol event that the goroutine builds from a domain event:
`watch.Event{Type: event.Event, Object: event.Object}`. -/
def toEvent (event : WatchEvent T) : Event T TList :=
  { type := event.Event, Object := .ofT event.Object }

/-- One step of the goroutine `go func() { ... }` of `Watch`. `none`: the
goroutine is blocked or has returned. -/
def stepTask (s : delegate T TList σ) (b : Bridge T TList) (w : World T TList σ) :
    Option (Bridge T TList × World T TList σ) :=
  match b.pc with
  | .start =>
    match w.storeWatch s.store b.ctx (some {}) with
    | ((_, some _), w1) => some ({ b with pc := .returned }, w1)
    | ((eventCh, none), w1) => some ({ b with pc := .ranging eventCh }, w1)
  | .ranging eventCh =>
    match eventCh.events with
    | event :: rest =>
      some ({ b with pc := .sending (toEvent event)
                          { events := rest, closes := eventCh.closes } }, w)
    | [] => if eventCh.closes then some ({ b with pc := .returned }, w) else none
  | .sending _ _ =>
    if b.w.ch.closed then some ({ b with panic := some "send on closed channel" }, w) else none
  | .returned => none

/-- One receive of the consumer from `ResultChan()`: on a closed channel it
sees the end of the stream, on an open one it takes the event of the blocked
send, which completes; otherwise it blocks (`none`). -/
def stepRecv (b : Bridge T TList) : Option (Bridge T TList) :=
  if b.w.ResultChan.closed then some { b with endOfStream := true }
  else
    match b.pc with
    | .sending ev eventCh => some { b with pc := .ranging eventCh, received := b.received ++ [ev] }
    | _ => none

/-- One call of `Stop()` by the consumer. -/
def stepStop (b : Bridge T TList) : Bridge T TList :=
  match b.w.Stop with
  | .returned w1 => { b with w := w1, closes := b.closes ++ [.consumer], stops := b.stops + 1 }
  | .panicked msg => { b with stops := b.stops + 1, panic := some msg }

/-- One step of a watch. Nothing runs after a panic. -/
def step (s : delegate T TList σ) (a : Action) (b : Bridge T TList) (w : World T TList σ) :
    Option (Bridge T TList × World T TList σ) :=
  match b.panic with
  | some _ => none
  | none =>
    match a with
    | .task => stepTask s b w
    | .recv => (stepRecv b).map fun b1 => (b1, w)
    | .stop => some (stepStop b, w)

/-- Runs a schedule; an action that cannot run where it is scheduled is
skipped. -/
def run (s : delegate T TList σ) :
    List Action → Bridge T TList × World T TList σ → Bridge T TList × World T TList σ
  | [], x => x
  | a :: rest, x =>
    match step s a x.1 x.2 with
    | some y => run s rest y
    | none => run s rest x

/-- The schedule in which the consumer reads each event as soon as it is
offered, for `n` events, and the goroutine then looks at the feed once more. -/
def deliverAll : Nat → List Action
  | 0 => [.task]
  | n + 1 => .task :: .recv :: deliverAll n

/-- Whether a call is `store.Get`. -/
def Call.isStoreGet {T TList : Type} : Call T TList → Bool
  | .storeGet _ _ _ => true
  | _ => false

/-- The states of a watch on the feed `feed` that nobody has stopped: the
channel is open and was closed by nobody, nothing has panicked, and what the
consumer has read, then the event of the blocked send, then the events still
in the feed, make up the events of the feed in their order. `w0` is the world
before the goroutine calls `store.Watch`, `w1` the world after. -/
def Forwarding (feed : Feed T) (ctx : Context) (w0 w1 : World T TList σ)
    (x : Bridge T TList × World T TList σ) : Prop :=
  x.1.ctx = ctx ∧ x.1.w.ch.closed = false ∧ x.1.panic = none ∧ x.1.endOfStream = false ∧
  x.1.closes = [] ∧
  match x.1.pc with
  | .start => x.1.received = [] ∧ x.2 = w0
  | .ranging eventCh =>
    eventCh.closes = feed.closes ∧ x.2 = w1 ∧
      x.1.received ++ eventCh.events.map toEvent = feed.events.map toEvent
  | .sending ev eventCh =>
    eventCh.closes = feed.closes ∧ x.2 = w1 ∧
      x.1.received ++ ev :: eventCh.events.map toEvent = feed.events.map toEvent
  | .returned => feed.closes = true ∧ x.2 = w1 ∧ x.1.received = feed.events.map toEvent

/-- The execution context that `makeContext` builds for a caller. -/
def builtContext (s : delegate T TList σ) (parentCtx : ParentContext) : Context :=
  { Context := some parentCtx, User := parentCtx.user, Authorizer := s.authorizer }

/-! ## Test doubles -/

/-- A store double over a call counter: every method succeeds; the watch feed
carries two events and is then closed. -/
def okStore : Store Nat (List Nat) Nat where
  Get := fun _ name _ n => ((name.length, none), n + 1)
  List := fun _ _ n => (([1, 2], none), n + 1)
  Create := fun _ obj _ n => ((obj, none), n + 1)
  Update := fun _ obj _ n => ((obj + 1, none), n + 1)
  Delete := fun _ _ _ n => (none, n + 1)
  Watch := fun _ _ n =>
    (({ events := [{ Event := "ADDED", Object := 1 }, { Event := "MODIFIED", Object := 2 }],
        closes := true }, none), n + 1)

/-- A store double over a call counter: every method fails with the same
error. -/
def failingStore : Store Nat (List Nat) Nat where
  Get := fun _ _ _ n => ((0, some (.external 7)), n + 1)
  List := fun _ _ n => (([], some (.external 7)), n + 1)
  Create := fun _ _ _ n => ((0, some (.external 7)), n + 1)
  Update := fun _ _ _ n => ((0, some (.external 7)), n + 1)
  Delete := fun _ _ _ n => (some (.external 7), n + 1)
  Watch := fun _ _ n => (({ events := [], closes := false }, some (.external 7)), n + 1)

/-- A scheme double that copies the fields over. -/
def copyScheme : Scheme where
  Convert := fun options out =>
    match options with
    | some o => ({ out with ResourceVersion := o.ResourceVersion, Limit := o.Limit,
                            Continue := o.Continue }, none)
    | none => (out, none)

/-- An adapter over `okStore`. -/
def okDelegate : delegate Nat (List Nat) Nat :=
  { gvk := ("ext.cattle.io", "v1", "Token"), gvr := ("ext.cattle.io", "v1", "tokens"),
    singularName := "token", store := okStore, authorizer := some { id := 1 },
    scheme := copyScheme }

/-- An adapter over `failingStore`. -/
def failingDelegate : delegate Nat (List Nat) Nat :=
  { okDelegate with store := failingStore }

/-- A store double over a call counter that can be read but not written: Get,
List and Watch succeed, Create, Update and Delete fail. -/
def readOnlyStore : Store Nat (List Nat) Nat :=
  { okStore with
    Create := fun _ _ _ n => ((0, some (.external 7)), n + 1)
    Update := fun _ _ _ n => ((0, some (.external 7)), n + 1)
    Delete := fun _ _ _ n => (some (.external 7), n + 1) }

/-- An adapter over `readOnlyStore`. -/
def readOnlyDelegate : delegate Nat (List Nat) Nat :=
  { okDelegate with store := readOnlyStore }

/-- A store double like `okStore` whose watch feed carries no event and is
closed at once. -/
def emptyFeedStore : Store Nat (List Nat) Nat :=
  { okStore with Watch := fun _ _ n => (({ events := [], closes := true }, none), n + 1) }

/-- An adapter over `emptyFeedStore`. -/
def emptyFeedDelegate : delegate Nat (List Nat) Nat :=
  { okDelegate with store := emptyFeedStore }

/-- A create validation hook that rejects every object. -/
def rejectAll : ValidateObjectFunc Nat (List Nat) Nat :=
  fun _ _ n => (some (.external 9), n + 1)

/-- A request context that carries an identity. -/
def alice : ParentContext := { user := some { name := "alice" }, cancelled := false }

/-- A request context without identity. -/
def anonymous : ParentContext := { user := none, cancelled := false }

/-- A world in which nothing has been called yet. -/
def world0 : World Nat (List Nat) Nat := { state := 0, calls := [] }

/-- The watch that `Watch` starts for `alice` on a given adapter. -/
def watchOf (s : delegate Nat (List Nat) Nat) : Bridge Nat (List Nat) :=
  Bridge.fresh Nat (List Nat) (builtContext s alice)

/-! ## Building the execution context -/

theorem makeContext_of_user (s : delegate T TList σ) (parentCtx : ParentContext) (u : UserInfo)
    (hid : parentCtx.user = some u) :
    s.makeContext parentCtx = (builtContext s parentCtx, none) := by
  simp [delegate.makeContext, UserFrom, builtContext, hid]

theorem makeContext_of_absent (s : delegate T TList σ) (parentCtx : ParentContext)
    (h : (UserFrom parentCtx).2 = false) :
    s.makeContext parentCtx =
      ({ Context := none, User := none, Authorizer := none }, some MissingIdentity) := by
  cases hu : parentCtx.user with
  | none => simp [delegate.makeContext, UserFrom, MissingIdentity, hu]
  | some u => simp [UserFrom, hu] at h

/-! ## Calls without identity -/

/-- C1: when `request.UserFrom` reports no identity for the parent context,
`makeContext` fails with the missing-identity error and each of Get, List,
Create, Update, Delete and Watch returns this error and leaves the world as
it was: no call is added to the call log, the state of the store is
untouched, and Watch hands out no handle and starts no goroutine. -/
theorem missing_identity_no_store_call (s : delegate T TList σ) (parentCtx : ParentContext)
    (h : (UserFrom parentCtx).2 = false) (name : String)
    (getOptions : Option GetOptions) (listOptions watchOptions : Option InternalListOptions)
    (obj : RuntimeObject T TList)
    (createValidation deleteValidation : Option (ValidateObjectFunc T TList σ))
    (createOptions : Option CreateOptions) (objInfo : Option (UpdatedObjectInfo T TList σ))
    (updateValidation : Option (ValidateObjectUpdateFunc T TList σ)) (forceAllowCreate : Bool)
    (updateOptions : Option UpdateOptions) (deleteOptions : Option DeleteOptions)
    (w : World T TList σ) :
    (s.makeContext parentCtx).2 = some MissingIdentity ∧
    s.Get parentCtx name getOptions w = ((.nil, some MissingIdentity), w) ∧
    s.List parentCtx listOptions w = ((.nil, some MissingIdentity), w) ∧
    s.Create parentCtx obj createValidation createOptions w =
      (.returned (.nil, some MissingIdentity), w) ∧
    s.Update parentCtx name objInfo createValidation updateValidation forceAllowCreate
        updateOptions w = (.returned (.nil, false, some MissingIdentity), w) ∧
    s.Delete parentCtx name deleteValidation deleteOptions w =
      ((.nil, false, some MissingIdentity), w) ∧
    s.Watch parentCtx watchOptions w = ((none, some MissingIdentity), w) := by
  have hm := makeContext_of_absent s parentCtx h
  refine ⟨by rw [hm], ?_, ?_, ?_, ?_, ?_, ?_⟩
  · simp [delegate.Get, hm]
  · simp [delegate.List, hm]
  · simp [delegate.Create, hm]
  · simp [delegate.Update, hm]
  · simp [delegate.Delete, hm]
  · simp [delegate.Watch, hm]

theorem missing_identity_no_store_call_witness :
    (UserFrom anonymous).2 = false ∧
    okDelegate.Get anonymous "tok" none world0 = ((.nil, some MissingIdentity), world0) ∧
    okDelegate.Delete anonymous "tok" none none world0 =
      ((.nil, false, some MissingIdentity), world0) ∧
    okDelegate.Watch anonymous none world0 = ((none, some MissingIdentity), world0) :=
  have h := missing_identity_no_store_call okDelegate anonymous rfl "tok" none none none
    (.ofT 1) none none none none none false none none world0
  ⟨rfl, h.2.1, h.2.2.2.2.2.1, h.2.2.2.2.2.2⟩

/-! ## Create -/

/-- C7: with identity present and a create validation hook that fails with
`e` on the built execution context and the candidate object, Create returns
the candidate object unchanged together with `e`; the hook is called once,
with the context that `makeContext` builds and with the candidate, and this
is the only call Create makes: `store.Create` is not called. -/
theorem Create_validation_failure (s : delegate T TList σ) (parentCtx : ParentContext)
    (u : UserInfo) (hid : parentCtx.user = some u) (obj : RuntimeObject T TList)
    (createValidation : ValidateObjectFunc T TList σ) (options : Option CreateOptions)
    (w : World T TList σ) (e : GoError)
    (hfail : (createValidation (builtContext s parentCtx) obj w.state).1 = some e) :
    s.makeContext parentCtx = (builtContext s parentCtx, none) ∧
    s.Create parentCtx obj (some createValidation) options w =
      (.returned (obj, some e),
        { state := (createValidation (builtContext s parentCtx) obj w.state).2,
          calls := w.calls ++ [.createValidation (builtContext s parentCtx) obj] }) := by
  have hm := makeContext_of_user s parentCtx u hid
  refine ⟨hm, ?_⟩
  simp [delegate.Create, hm, World.callCreateValidation, hfail]

theorem Create_validation_failure_witness :
    alice.user = some { name := "alice" } ∧
    (rejectAll (builtContext okDelegate alice) (.ofT 5) world0.state).1 = some (.external 9) ∧
    okDelegate.Create alice (.ofT 5) (some rejectAll) none world0 =
      (.returned (.ofT 5, some (.external 9)),
        { state := 1, calls := [.createValidation (builtContext okDelegate alice) (.ofT 5)] }) :=
  ⟨rfl, rfl,
    (Create_validation_failure okDelegate alice { name := "alice" } rfl (.ofT 5) rejectAll none
      world0 (.external 9) rfl).2⟩

/-- C6, evaluated where it fails: Create for a caller with identity, without
validation hook, on a candidate whose dynamic type is not the resource type
(and likewise on a nil candidate) does not return an error value: the type
assertion panics; `store.Create` has not been called. The sibling Update
returns the type-mismatch error for such a candidate. -/
theorem Create_wrong_type_panics :
    (okDelegate.Create alice (.foreign 3) none none world0).1
      = .panicked "interface conversion" ∧
    (okDelegate.Create alice .nil none none world0).1 = .panicked "interface conversion" ∧
    (okDelegate.Create alice (.foreign 3) none none world0).2.calls = [] ∧
    (okDelegate.Update alice "tok" (some fun _ _ n => ((.foreign 3, none), n)) none none false
      none world0).1 = .returned (.nil, false, some InternalTypeMismatch) :=
  ⟨rfl, rfl, rfl, rfl⟩

/-- The Update half of C6: with identity present, when `store.Get` succeeds
and `objInfo.UpdatedObject` returns, without error, an object that is not of
the resource type, Update returns the type-mismatch error with a nil object
and `created = false`; the hooks and `store.Update` are not called. -/
theorem Update_wrong_type (s : delegate T TList σ) (parentCtx : ParentContext) (u : UserInfo)
    (hid : parentCtx.user = some u) (name : String) (info : UpdatedObjectInfo T TList σ)
    (createValidation : Option (ValidateObjectFunc T TList σ))
    (updateValidation : Option (ValidateObjectUpdateFunc T TList σ)) (forceAllowCreate : Bool)
    (options : Option UpdateOptions) (w : World T TList σ) (old : T) (st1 st2 : σ)
    (newObj : RuntimeObject T TList) (hnot : ∀ t, newObj ≠ .ofT t)
    (hget : s.store.Get (builtContext s parentCtx) name (some {}) w.state = ((old, none), st1))
    (hinfo : info (builtContext s parentCtx) (.ofT old) st1 = ((newObj, none), st2)) :
    s.Update parentCtx name (some info) createValidation updateValidation forceAllowCreate
        options w =
      (.returned (.nil, false, some InternalTypeMismatch),
        { state := st2,
          calls := w.calls ++ [.storeGet (builtContext s parentCtx) name (some {}),
            .updatedObject (builtContext s parentCtx) (.ofT old)] }) := by
  have hm := makeContext_of_user s parentCtx u hid
  cases newObj with
  | ofT t => exact absurd rfl (hnot t)
  | nil =>
    simp [delegate.Update, hm, World.storeGet, hget, World.callUpdatedObject, hinfo,
      InternalTypeMismatch]
  | ofTList l =>
    simp [delegate.Update, hm, World.storeGet, hget, World.callUpdatedObject, hinfo,
      InternalTypeMismatch]
  | foreign tag =>
    simp [delegate.Update, hm, World.storeGet, hget, World.callUpdatedObject, hinfo,
      InternalTypeMismatch]

/-! ## Delete -/

/-- C9, refuted as stated: Delete for a context without identity returns
`wasImmediate = false`. -/
theorem Delete_wasImmediate_false_without_identity :
    (okDelegate.Delete anonymous "tok" none none world0).1
      = (.nil, false, some MissingIdentity) ∧
    (okDelegate.Delete anonymous "tok" none none world0).1.2.1 ≠ true := by
  constructor
  · rfl
  · decide

/-- C9, amended: for every call to Delete the returned object is nil, and the
returned `wasImmediate` flag is true exactly when the parent context carries
an identity, whether or not `store.Delete` fails; without identity the flag
is false. -/
theorem Delete_result (s : delegate T TList σ) (parentCtx : ParentContext) (name : String)
    (deleteValidation : Option (ValidateObjectFunc T TList σ))
    (options : Option DeleteOptions) (w : World T TList σ) :
    (s.Delete parentCtx name deleteValidation options w).1.1 = .nil ∧
    (s.Delete parentCtx name deleteValidation options w).1.2.1 = (UserFrom parentCtx).2 := by
  cases hu : parentCtx.user with
  | none =>
    have hm := makeContext_of_absent s parentCtx (by simp [UserFrom, hu])
    simp [delegate.Delete, hm, UserFrom, hu]
  | some u =>
    have hm := makeContext_of_user s parentCtx u hu
    simp [delegate.Delete, hm, UserFrom, hu]

/-! ## Update -/

/-- C8: with identity present, when the Get of the current object fails with
`e`, Update returns a nil object, `created = false` and `e`, whatever
`objInfo`, the hooks, `forceAllowCreate` and the options are, and
`store.Get` (with empty options) is the only call it makes: neither
`objInfo.UpdatedObject` nor `store.Create` nor `store.Update` is called.
Moreover, whenever Update returns, for any arguments at all, the `created`
flag it returns is false. -/
theorem Update_get_failure (s : delegate T TList σ) (parentCtx : ParentContext) (u : UserInfo)
    (hid : parentCtx.user = some u) (name : String) (w : World T TList σ) (e : GoError)
    (hget : (s.store.Get (builtContext s parentCtx) name (some {}) w.state).1.2 = some e) :
    (∀ (objInfo : Option (UpdatedObjectInfo T TList σ))
        (createValidation : Option (ValidateObjectFunc T TList σ))
        (updateValidation : Option (ValidateObjectUpdateFunc T TList σ))
        (forceAllowCreate : Bool) (options : Option UpdateOptions),
      s.Update parentCtx name objInfo createValidation updateValidation forceAllowCreate
          options w =
        (.returned (.nil, false, some e),
          { state := (s.store.Get (builtContext s parentCtx) name (some {}) w.state).2,
            calls := w.calls ++ [.storeGet (builtContext s parentCtx) name (some {})] })) ∧
    (∀ (anyCtx : ParentContext) (anyName : String)
        (objInfo : Option (UpdatedObjectInfo T TList σ))
        (createValidation : Option (ValidateObjectFunc T TList σ))
        (updateValidation : Option (ValidateObjectUpdateFunc T TList σ))
        (forceAllowCreate : Bool) (options : Option UpdateOptions) (w1 : World T TList σ)
        (obj : RuntimeObject T TList) (created : Bool) (err : Option GoError),
      (s.Update anyCtx anyName objInfo createValidation updateValidation forceAllowCreate
          options w1).1 = .returned (obj, created, err) → created = false) := by
  have hm := makeContext_of_user s parentCtx u hid
  constructor
  · intro objInfo createValidation updateValidation forceAllowCreate options
    simp only [delegate.Update, hm]
    split
    · rename_i x err w1 heq
      have h2 := congrArg (fun r => r.1.2) heq
      have h3 := congrArg (fun r => r.2) heq
      simp only [World.storeGet] at h2 h3
      rw [hget] at h2
      cases h2
      rw [← h3]
    · rename_i oldObj w1 heq
      have h2 := congrArg (fun r => r.1.2) heq
      simp only [World.storeGet] at h2
      rw [hget] at h2
      cases h2
  · intro anyCtx anyName objInfo createValidation updateValidation forceAllowCreate options w1
      obj created err hret
    simp only [delegate.Update] at hret
    repeat' split at hret
    all_goals first
      | (simp only [Outcome.returned.injEq, Prod.mk.injEq] at hret; exact hret.2.1.symm)
      | cases hret

/-- For any arguments at all, Update either panics or returns a triple whose
`created` flag is false. -/
theorem Update_created_false (s : delegate T TList σ) (parentCtx : ParentContext)
    (name : String) (objInfo : Option (UpdatedObjectInfo T TList σ))
    (createValidation : Option (ValidateObjectFunc T TList σ))
    (updateValidation : Option (ValidateObjectUpdateFunc T TList σ))
    (forceAllowCreate : Bool) (options : Option UpdateOptions) (w : World T TList σ) :
    (∃ msg, (s.Update parentCtx name objInfo createValidation updateValidation forceAllowCreate
        options w).1 = .panicked msg) ∨
    (∃ obj err, (s.Update parentCtx name objInfo createValidation updateValidation
        forceAllowCreate options w).1 = .returned (obj, false, err)) := by
  cases hret : (s.Update parentCtx name objInfo createValidation updateValidation
      forceAllowCreate options w).1 with
  | panicked msg => exact Or.inl ⟨msg, rfl⟩
  | returned v =>
    obtain ⟨obj, created, err⟩ := v
    have hc : created = false := by
      simp only [delegate.Update] at hret
      repeat' split at hret
      all_goals first
        | (simp only [Outcome.returned.injEq, Prod.mk.injEq] at hret; exact hret.2.1.symm)
        | cases hret
    subst hc
    exact Or.inr ⟨obj, err, rfl⟩

theorem Update_get_failure_witness :
    alice.user = some { name := "alice" } ∧
    (failingStore.Get (builtContext failingDelegate alice) "tok" (some {}) world0.state).1.2 =
      some (.external 7) ∧
    failingDelegate.Update alice "tok" (some fun _ old n => ((old, none), n)) none none true
        none world0 =
      (.returned (.nil, false, some (.external 7)),
        { state := 1, calls := [.storeGet (builtContext failingDelegate alice) "tok" (some {})] }) :=
  ⟨rfl, rfl,
    (Update_get_failure failingDelegate alice { name := "alice" } rfl "tok" world0 (.external 7)
      rfl).1 (some fun _ old n => ((old, none), n)) none none true none⟩

/-! ## Errors of the store -/

/-- C5, evaluated where it fails: for a caller with identity and a store whose
`Watch` fails with an error, Watch returns a handle and a nil error, not
that error, and the goroutine that called `store.Watch` returns at once:
nothing is sent, the channel stays open, the error is seen by nobody. The
sibling operations Get, List, Create, Update and Delete return the error of
their store method to the caller. -/
theorem Watch_swallows_store_error :
    (failingStore.Watch (builtContext failingDelegate alice) (some {}) world0.state).1.2
      = some (.external 7) ∧
    failingDelegate.Watch alice none world0 = ((some (watchOf failingDelegate), none), world0) ∧
    (failingDelegate.Watch alice none world0).1.2 ≠ some (.external 7) ∧
    (run failingDelegate [.task, .recv, .task] (watchOf failingDelegate, world0)).1
      = { watchOf failingDelegate with pc := .returned } := by
  refine ⟨rfl, rfl, ?_, rfl⟩
  decide

/-- The synchronous operations next to Watch: with identity present, each of
Get, List, Create, Update and Delete returns the error `e` of the store
method it forwards to, as it is (List once the options are converted; Create
once the hook, if any, has accepted a candidate of the resource type; Update
for a failing `store.Get`, and for a failing `store.Update` once the updated
object is of the resource type and the hook, if any, has accepted it). Watch
has returned its handle and a nil error before the goroutine calls
`store.Watch`, and a goroutine whose `store.Watch` fails returns without
sending anything. -/
theorem store_error_returned (s : delegate T TList σ) (parentCtx : ParentContext)
    (u : UserInfo) (hid : parentCtx.user = some u) (name : String) (w : World T TList σ)
    (e : GoError) :
    (∀ options, (s.store.Get (builtContext s parentCtx) name options w.state).1.2 = some e →
      (s.Get parentCtx name options w).1.2 = some e) ∧
    (∀ internaloptions options,
      convertListOptions s.scheme internaloptions = (options, none) →
      (s.store.List (builtContext s parentCtx) options w.state).1.2 = some e →
      (s.List parentCtx internaloptions w).1.2 = some e) ∧
    (∀ (t : T) (createValidation : Option (ValidateObjectFunc T TList σ)) options (st : σ),
      (match createValidation with
        | some f => f (builtContext s parentCtx) (.ofT t) w.state = (none, st)
        | none => st = w.state) →
      (s.store.Create (builtContext s parentCtx) t options st).1.2 = some e →
      (s.Create parentCtx (.ofT t) createValidation options w).1
        = .returned (.ofT (s.store.Create (builtContext s parentCtx) t options st).1.1,
            some e)) ∧
    (∀ objInfo createValidation updateValidation forceAllowCreate options,
      (s.store.Get (builtContext s parentCtx) name (some {}) w.state).1.2 = some e →
      (s.Update parentCtx name objInfo createValidation updateValidation forceAllowCreate
        options w).1 = .returned (.nil, false, some e)) ∧
    (∀ (info : UpdatedObjectInfo T TList σ) createValidation
        (updateValidation : Option (ValidateObjectUpdateFunc T TList σ)) forceAllowCreate
        options (old newT : T) (st1 st2 st3 : σ),
      s.store.Get (builtContext s parentCtx) name (some {}) w.state = ((old, none), st1) →
      info (builtContext s parentCtx) (.ofT old) st1 = ((.ofT newT, none), st2) →
      (match updateValidation with
        | some f => f (builtContext s parentCtx) (.ofT newT) (.ofT old) st2 = (none, st3)
        | none => st3 = st2) →
      (s.store.Update (builtContext s parentCtx) newT options st3).1.2 = some e →
      (s.Update parentCtx name (some info) createValidation updateValidation forceAllowCreate
        options w).1 = .returned (.nil, false, some e)) ∧
    (∀ deleteValidation options,
      (s.store.Delete (builtContext s parentCtx) name options w.state).1 = some e →
      (s.Delete parentCtx name deleteValidation options w).1 = (.nil, true, some e)) ∧
    (∀ options,
      s.Watch parentCtx options w
        = ((some (Bridge.fresh T TList (builtContext s parentCtx)), none), w) ∧
      ∀ w1 : World T TList σ,
        (s.store.Watch (builtContext s parentCtx) (some {}) w1.state).1.2 = some e →
        stepTask s (Bridge.fresh T TList (builtContext s parentCtx)) w1
          = some ({ Bridge.fresh T TList (builtContext s parentCtx) with pc := .returned },
              (w1.storeWatch s.store (builtContext s parentCtx) (some {})).2)) := by
  have hm := makeContext_of_user s parentCtx u hid
  refine ⟨?_, ?_, ?_, ?_, ?_, ?_, ?_⟩
  · intro options h
    simp [delegate.Get, hm, World.storeGet, h]
  · intro internaloptions options hc h
    simp [delegate.List, hm, hc, World.storeList, h]
  · intro t createValidation options st hv h
    cases createValidation with
    | none =>
      subst hv
      simp [delegate.Create, hm, World.storeCreate, h]
    | some f =>
      simp only at hv
      simp [delegate.Create, hm, World.callCreateValidation, hv, World.storeCreate, h]
  · intro objInfo createValidation updateValidation forceAllowCreate options h
    exact congrArg Prod.fst ((Update_get_failure s parentCtx u hid name w e h).1 objInfo
      createValidation updateValidation forceAllowCreate options)
  · intro info createValidation updateValidation forceAllowCreate options old newT st1 st2 st3
      hget hinfo hv h
    rcases hx : s.store.Update (builtContext s parentCtx) newT options st3 with ⟨⟨x, ex⟩, st4⟩
    rw [hx] at h
    simp only at h
    subst h
    cases updateValidation with
    | none =>
      subst hv
      simp [delegate.Update, hm, World.storeGet, hget, World.callUpdatedObject, hinfo,
        World.storeUpdate, hx]
    | some f =>
      simp only at hv
      simp [delegate.Update, hm, World.storeGet, hget, World.callUpdatedObject, hinfo,
        World.callUpdateValidation, hv, World.storeUpdate, hx]
  · intro deleteValidation options h
    simp [delegate.Delete, hm, World.storeDelete, h]
  · intro options
    refine ⟨by simp only [delegate.Watch, hm], ?_⟩
    intro w1 h
    rcases hx : s.store.Watch (builtContext s parentCtx) (some {}) w1.state with ⟨⟨x, ex⟩, st4⟩
    rw [hx] at h
    simp only at h
    subst h
    simp [stepTask, Bridge.fresh, World.storeWatch, hx]

theorem store_error_returned_witness :
    alice.user = some { name := "alice" } ∧
    (failingDelegate.Get alice "tok" none world0).1.2 = some (.external 7) ∧
    (failingDelegate.List alice none world0).1.2 = some (.external 7) ∧
    (readOnlyDelegate.Update alice "tok" (some fun _ old n => ((old, none), n)) none none false
      none world0).1 = .returned (.nil, false, some (.external 7)) ∧
    (failingDelegate.Delete alice "tok" none none world0).1 = (.nil, true, some (.external 7)) :=
  have h := store_error_returned failingDelegate alice { name := "alice" } rfl "tok" world0
    (.external 7)
  have h1 := store_error_returned readOnlyDelegate alice { name := "alice" } rfl "tok" world0
    (.external 7)
  ⟨rfl, h.1 none rfl, h.2.1 none (some {}) rfl rfl,
    h1.2.2.2.2.1 (fun _ old n => ((old, none), n)) none none false none 3 3 1 1 1 rfl rfl rfl rfl,
    h.2.2.2.2.2.1 none none rfl⟩

/-! ## The watch: runs that nobody stops -/

theorem step_forwarding (s : delegate T TList σ) (feed : Feed T) (ctx : Context)
    (w0 w1 : World T TList σ) (hw : w0.storeWatch s.store ctx (some {}) = ((feed, none), w1))
    (a : Action) (ha : a ≠ .stop) (x y : Bridge T TList × World T TList σ)
    (hx : Forwarding feed ctx w0 w1 x) (hstep : step s a x.1 x.2 = some y) :
    Forwarding feed ctx w0 w1 y := by
  obtain ⟨⟨bctx, ⟨⟨closed⟩⟩, pc, received, eos, closes, stops, pn⟩, w⟩ := x
  obtain ⟨h1, h2, h3, h4, h5, h6⟩ := hx
  simp only at h1 h2 h3 h4 h5 h6
  subst h1 h2 h3 h4 h5
  cases a with
  | stop => exact absurd rfl ha
  | task =>
    cases pc with
    | start =>
      obtain ⟨h7, h8⟩ := h6
      subst h8
      simp only [step, stepTask, hw, Option.some.injEq] at hstep
      subst hstep
      simp [Forwarding, h7]
    | ranging eventCh =>
      obtain ⟨h7, h8, h9⟩ := h6
      obtain ⟨events, cl⟩ := eventCh
      cases events with
      | nil =>
        simp only [step, stepTask] at hstep
        split at hstep
        · simp only [Option.some.injEq] at hstep
          subst hstep
          rename_i hcl
          simp only at h7 hcl h8 h9
          simp only [List.map_nil, List.append_nil] at h9
          simp [Forwarding, ← h7, hcl, h8, h9]
        · cases hstep
      | cons e rest =>
        simp only [step, stepTask, Option.some.injEq] at hstep
        subst hstep
        simp only [List.map_cons] at h9
        simp only at h7 h8
        simp [Forwarding, h7, h8, h9]
    | sending ev eventCh => simp [step, stepTask] at hstep
    | returned => simp [step, stepTask] at hstep
  | recv =>
    cases pc with
    | sending ev eventCh =>
      obtain ⟨h7, h8, h9⟩ := h6
      simp only [step, stepRecv, watcher.ResultChan, Bool.false_eq_true, if_false,
        Option.map_some', Option.some.injEq] at hstep
      subst hstep
      simp [Forwarding, h7, h8, h9]
    | start => simp [step, stepRecv, watcher.ResultChan] at hstep
    | ranging eventCh => simp [step, stepRecv, watcher.ResultChan] at hstep
    | returned => simp [step, stepRecv, watcher.ResultChan] at hstep

theorem run_forwarding (s : delegate T TList σ) (feed : Feed T) (ctx : Context)
    (w0 w1 : World T TList σ) (hw : w0.storeWatch s.store ctx (some {}) = ((feed, none), w1))
    (sched : List Action) (hs : Action.stop ∉ sched) (x : Bridge T TList × World T TList σ)
    (hx : Forwarding feed ctx w0 w1 x) :
    Forwarding feed ctx w0 w1 (run s sched x) := by
  induction sched generalizing x with
  | nil => exact hx
  | cons a rest ih =>
    have ha : a ≠ .stop := fun h => hs (h ▸ List.mem_cons_self _ _)
    have hrest : Action.stop ∉ rest := fun h => hs (List.mem_cons_of_mem _ h)
    simp only [run]
    cases hstep : step s a x.1 x.2 with
    | none => exact ih hrest x hx
    | some y => exact ih hrest y (step_forwarding s feed ctx w0 w1 hw a ha x y hx hstep)

theorem run_deliverAll (s : delegate T TList σ) (events : List (WatchEvent T)) (closes : Bool)
    (b : Bridge T TList) (w : World T TList σ) (hp : b.panic = none)
    (hc : b.w.ch.closed = false) (hpc : b.pc = .ranging { events := events, closes := closes }) :
    (run s (deliverAll events.length) (b, w)).1.received
      = b.received ++ events.map toEvent := by
  induction events generalizing b with
  | nil =>
    obtain ⟨bctx, ⟨⟨closed⟩⟩, pc, received, eos, cl, stops, pn⟩ := b
    simp only at hp hc hpc
    subst hp hc hpc
    cases closes <;> simp [deliverAll, run, step, stepTask]
  | cons e rest ih =>
    obtain ⟨bctx, ⟨⟨closed⟩⟩, pc, received, eos, cl, stops, pn⟩ := b
    simp only at hp hc hpc
    subst hp hc hpc
    simp only [List.length_cons, deliverAll, run, step, stepTask, stepRecv, watcher.ResultChan,
      Bool.false_eq_true, if_false, Option.map_some']
    rw [ih _ rfl rfl rfl]
    simp

theorem stop_not_mem_deliverAll (n : Nat) : Action.stop ∉ deliverAll n := by
  induction n with
  | zero => simp [deliverAll]
  | succ n ih => simp [deliverAll, ih]

theorem Forwarding.received (s : delegate T TList σ) (feed : Feed T) (ctx : Context)
    (w0 w1 : World T TList σ) (x : Bridge T TList × World T TList σ)
    (hx : Forwarding feed ctx w0 w1 x) :
    x.1.panic = none ∧ x.1.w.ch.closed = false ∧
    x.1.received <+: feed.events.map toEvent ∧
    (step s .task x.1 x.2 = none → step s .recv x.1 x.2 = none →
      x.1.received = feed.events.map toEvent) := by
  obtain ⟨⟨bctx, ⟨⟨closed⟩⟩, pc, received, eos, closes, stops, pn⟩, w⟩ := x
  obtain ⟨h1, h2, h3, h4, h5, h6⟩ := hx
  simp only at h1 h2 h3 h4 h5 h6
  subst h1 h2 h3 h4 h5
  refine ⟨rfl, rfl, ?_, ?_⟩
  · cases pc with
    | start => simp [h6.1]
    | ranging eventCh => exact ⟨_, h6.2.2⟩
    | sending ev eventCh => exact ⟨_, h6.2.2⟩
    | returned => simp [h6.2.2]
  · intro ht hr
    cases pc with
    | start =>
      simp only [step, stepTask] at ht
      split at ht <;> cases ht
    | ranging eventCh =>
      obtain ⟨events, cl⟩ := eventCh
      cases events with
      | nil => simpa using h6.2.2
      | cons e rest => simp [step, stepTask] at ht
    | sending ev eventCh => simp [step, stepRecv, watcher.ResultChan] at hr
    | returned => exact h6.2.2

/-! ## The watch: who closes the channel -/

theorem step_keeps_channel (s : delegate T TList σ) (a : Action) (ha : a ≠ .stop)
    (x y : Bridge T TList × World T TList σ) (hstep : step s a x.1 x.2 = some y) :
    y.1.w = x.1.w ∧ y.1.closes = x.1.closes ∧ y.1.stops = x.1.stops := by
  obtain ⟨⟨bctx, wh, pc, received, eos, closes, stops, pn⟩, w⟩ := x
  cases pn with
  | some msg => simp [step] at hstep
  | none =>
    cases a with
    | stop => exact absurd rfl ha
    | task =>
      cases pc with
      | start =>
        simp only [step, stepTask] at hstep
        split at hstep <;>
          (simp only [Option.some.injEq] at hstep; subst hstep; exact ⟨rfl, rfl, rfl⟩)
      | ranging eventCh =>
        simp only [step, stepTask] at hstep
        split at hstep
        · simp only [Option.some.injEq] at hstep
          subst hstep
          exact ⟨rfl, rfl, rfl⟩
        · split at hstep
          · simp only [Option.some.injEq] at hstep
            subst hstep
            exact ⟨rfl, rfl, rfl⟩
          · cases hstep
      | sending ev eventCh =>
        simp only [step, stepTask] at hstep
        split at hstep
        · simp only [Option.some.injEq] at hstep
          subst hstep
          exact ⟨rfl, rfl, rfl⟩
        · cases hstep
      | returned => simp [step, stepTask] at hstep
    | recv =>
      simp only [step, stepRecv] at hstep
      split at hstep
      · simp only [Option.map_some', Option.some.injEq] at hstep
        subst hstep
        exact ⟨rfl, rfl, rfl⟩
      · split at hstep
        · simp only [Option.map_some', Option.some.injEq] at hstep
          subst hstep
          exact ⟨rfl, rfl, rfl⟩
        · simp at hstep

/-- Without a call of `Stop()`, the channel of the handle stays as it is: the
goroutine never closes it, whatever the feed does. -/
theorem run_keeps_channel (s : delegate T TList σ) (sched : List Action)
    (hs : Action.stop ∉ sched) (x : Bridge T TList × World T TList σ) :
    (run s sched x).1.w = x.1.w ∧ (run s sched x).1.closes = x.1.closes ∧
    (run s sched x).1.stops = x.1.stops := by
  induction sched generalizing x with
  | nil => exact ⟨rfl, rfl, rfl⟩
  | cons a rest ih =>
    have ha : a ≠ .stop := fun h => hs (h ▸ List.mem_cons_self _ _)
    have hrest : Action.stop ∉ rest := fun h => hs (List.mem_cons_of_mem _ h)
    simp only [run]
    cases hstep : step s a x.1 x.2 with
    | none => exact ih hrest x
    | some y =>
      obtain ⟨h1, h2, h3⟩ := step_keeps_channel s a ha x y hstep
      obtain ⟨i1, i2, i3⟩ := ih hrest y
      exact ⟨i1.trans h1, i2.trans h2, i3.trans h3⟩

/-! ## The watch: calls into the store -/

theorem step_calls (s : delegate T TList σ) (ctx : Context) (cs : List (Call T TList))
    (a : Action) (x y : Bridge T TList × World T TList σ) (hctx : x.1.ctx = ctx)
    (hx : (x.1.pc = .start ∧ x.2.calls = cs) ∨
      (x.1.pc ≠ .start ∧ x.2.calls = cs ++ [.storeWatch ctx (some {})]))
    (hstep : step s a x.1 x.2 = some y) :
    y.1.ctx = ctx ∧ ((y.1.pc = .start ∧ y.2.calls = cs) ∨
      (y.1.pc ≠ .start ∧ y.2.calls = cs ++ [.storeWatch ctx (some {})])) := by
  obtain ⟨⟨bctx, wh, pc, received, eos, closes, stops, pn⟩, w⟩ := x
  simp only at hctx hx
  subst hctx
  cases pn with
  | some msg => simp [step] at hstep
  | none =>
    cases a with
    | stop =>
      simp only [step, stepStop, Option.some.injEq] at hstep
      subst hstep
      split <;> exact ⟨rfl, hx⟩
    | recv =>
      cases pc with
      | sending ev eventCh =>
        rcases hx with ⟨h, -⟩ | ⟨-, h⟩
        · cases h
        · simp only [step, stepRecv] at hstep
          split at hstep <;>
            (simp only [Option.map_some', Option.some.injEq] at hstep
             subst hstep
             exact ⟨rfl, Or.inr ⟨by simp, h⟩⟩)
      | start =>
        simp only [step, stepRecv] at hstep
        split at hstep
        · simp only [Option.map_some', Option.some.injEq] at hstep
          subst hstep
          exact ⟨rfl, hx⟩
        · simp at hstep
      | ranging eventCh =>
        simp only [step, stepRecv] at hstep
        split at hstep
        · simp only [Option.map_some', Option.some.injEq] at hstep
          subst hstep
          exact ⟨rfl, hx⟩
        · simp at hstep
      | returned =>
        simp only [step, stepRecv] at hstep
        split at hstep
        · simp only [Option.map_some', Option.some.injEq] at hstep
          subst hstep
          exact ⟨rfl, hx⟩
        · simp at hstep
    | task =>
      cases pc with
      | start =>
        rcases hx with ⟨-, h⟩ | ⟨h, -⟩
        · rcases hr : s.store.Watch bctx (some {}) w.state with ⟨⟨f, _ | e⟩, st⟩ <;>
            (simp only [step, stepTask, World.storeWatch, hr, Option.some.injEq] at hstep
             subst hstep
             simp [h])
        · exact absurd rfl h
      | ranging eventCh =>
        rcases hx with ⟨h, -⟩ | ⟨-, h⟩
        · cases h
        · simp only [step, stepTask] at hstep
          split at hstep
          · simp only [Option.some.injEq] at hstep
            subst hstep
            exact ⟨rfl, Or.inr ⟨by simp, h⟩⟩
          · split at hstep
            · simp only [Option.some.injEq] at hstep
              subst hstep
              exact ⟨rfl, Or.inr ⟨by simp, h⟩⟩
            · cases hstep
      | sending ev eventCh =>
        rcases hx with ⟨h, -⟩ | ⟨-, h⟩
        · cases h
        · simp only [step, stepTask] at hstep
          split at hstep
          · simp only [Option.some.injEq] at hstep
            subst hstep
            exact ⟨rfl, Or.inr ⟨by simp, h⟩⟩
          · cases hstep
      | returned => simp [step, stepTask] at hstep

theorem run_calls (s : delegate T TList σ) (ctx : Context) (cs : List (Call T TList))
    (sched : List Action) (x : Bridge T TList × World T TList σ) (hctx : x.1.ctx = ctx)
    (hx : (x.1.pc = .start ∧ x.2.calls = cs) ∨
      (x.1.pc ≠ .start ∧ x.2.calls = cs ++ [.storeWatch ctx (some {})])) :
    (run s sched x).2.calls = cs ∨
      (run s sched x).2.calls = cs ++ [.storeWatch ctx (some {})] := by
  induction sched generalizing x with
  | nil => exact hx.imp (fun h => h.2) (fun h => h.2)
  | cons a rest ih =>
    simp only [run]
    cases hstep : step s a x.1 x.2 with
    | none => exact ih x hctx hx
    | some y =>
      obtain ⟨h1, h2⟩ := step_calls s ctx cs a x y hctx hx hstep
      exact ih y h1 h2

/-! ## The watch: the claims -/

/-- C3: with identity present and a store whose `Watch` hands out a feed of N
events, Watch starts the goroutine, and in every run in which the consumer
never calls `Stop()` nothing panics and what the consumer has read from the
outbound channel is a prefix of the N events of the feed, each translated
field by field (`Type` from `Event`, `Object` from `Object`), in the order of
the feed: nothing is dropped, duplicated, reordered or batched. Once neither
the goroutine nor a receive of the consumer can take a step, all N have been
read; and the run in which the consumer reads each event as soon as it is
offered contains no `Stop()` and delivers exactly these N events. -/
theorem Watch_forwards_in_order (s : delegate T TList σ) (parentCtx : ParentContext)
    (u : UserInfo) (hid : parentCtx.user = some u) (options : Option InternalListOptions)
    (w : World T TList σ) (feed : Feed T) (st : σ)
    (hfeed : s.store.Watch (builtContext s parentCtx) (some {}) w.state = ((feed, none), st)) :
    s.Watch parentCtx options w
      = ((some (Bridge.fresh T TList (builtContext s parentCtx)), none), w) ∧
    (∀ sched : List Action, Action.stop ∉ sched →
      (run s sched (Bridge.fresh T TList (builtContext s parentCtx), w)).1.panic = none ∧
      (run s sched (Bridge.fresh T TList (builtContext s parentCtx), w)).1.received
        <+: feed.events.map (fun e => { type := e.Event, Object := .ofT e.Object }) ∧
      (step s .task (run s sched (Bridge.fresh T TList (builtContext s parentCtx), w)).1
          (run s sched (Bridge.fresh T TList (builtContext s parentCtx), w)).2 = none →
        step s .recv (run s sched (Bridge.fresh T TList (builtContext s parentCtx), w)).1
          (run s sched (Bridge.fresh T TList (builtContext s parentCtx), w)).2 = none →
        (run s sched (Bridge.fresh T TList (builtContext s parentCtx), w)).1.received
          = feed.events.map (fun e => { type := e.Event, Object := .ofT e.Object }))) ∧
    Action.stop ∉ Action.task :: deliverAll feed.events.length ∧
    (run s (.task :: deliverAll feed.events.length)
        (Bridge.fresh T TList (builtContext s parentCtx), w)).1.received
      = feed.events.map (fun e => { type := e.Event, Object := .ofT e.Object }) ∧
    (run s (.task :: deliverAll feed.events.length)
        (Bridge.fresh T TList (builtContext s parentCtx), w)).1.received.length
      = feed.events.length := by
  have hm := makeContext_of_user s parentCtx u hid
  have hw : w.storeWatch s.store (builtContext s parentCtx) (some {})
      = ((feed, none), { state := st, calls := w.calls ++
          [.storeWatch (builtContext s parentCtx) (some {})] }) := by
    simp [World.storeWatch, hfeed]
  have h0 : Forwarding feed (builtContext s parentCtx) w
      { state := st, calls := w.calls ++ [.storeWatch (builtContext s parentCtx) (some {})] }
      (Bridge.fresh T TList (builtContext s parentCtx), w) := by
    simp [Forwarding, Bridge.fresh]
  have hmap : feed.events.map (fun e => ({ type := e.Event, Object := .ofT e.Object } :
      Event T TList)) = feed.events.map toEvent := rfl
  have hrun : (run s (.task :: deliverAll feed.events.length)
        (Bridge.fresh T TList (builtContext s parentCtx), w)).1.received
      = feed.events.map toEvent := by
    simp only [run, step, stepTask, Bridge.fresh, hw]
    rw [run_deliverAll s feed.events feed.closes _ _ rfl rfl rfl]
    simp
  refine ⟨by simp only [delegate.Watch, hm], ?_, ?_, ?_, ?_⟩
  · intro sched hs
    have hF := run_forwarding s feed (builtContext s parentCtx) w _ hw sched hs _ h0
    have hR := Forwarding.received s feed (builtContext s parentCtx) w _ _ hF
    rw [hmap]
    exact ⟨hR.1, hR.2.2.1, hR.2.2.2⟩
  · intro h
    rcases List.mem_cons.1 h with h | h
    · cases h
    · exact stop_not_mem_deliverAll _ h
  · rw [hmap]
    exact hrun
  · rw [hrun]
    simp

theorem Watch_forwards_in_order_witness :
    alice.user = some { name := "alice" } ∧
    okStore.Watch (builtContext okDelegate alice) (some {}) world0.state =
      (({ events := [{ Event := "ADDED", Object := 1 }, { Event := "MODIFIED", Object := 2 }],
          closes := true }, none), 1) ∧
    (run okDelegate (.task :: deliverAll 2)
        (Bridge.fresh Nat (List Nat) (builtContext okDelegate alice), world0)).1.received
      = [{ type := "ADDED", Object := .ofT 1 }, { type := "MODIFIED", Object := .ofT 2 }] :=
  ⟨rfl, rfl,
    (Watch_forwards_in_order okDelegate alice { name := "alice" } rfl none world0
      { events := [{ Event := "ADDED", Object := 1 }, { Event := "MODIFIED", Object := 2 }],
        closes := true } 1 rfl).2.2.2.1⟩

/-- C2, evaluated where it fails: on the handle that Watch returns, one
`Stop()` closes the outbound channel, so the channel is closed by the
consumer; a second `Stop()` panics with a close of a closed channel; and a
`Stop()` while the goroutine is blocked in its send, or before the goroutine
takes the next event of the feed, makes the goroutine send on the closed
channel, which panics. -/
theorem Stop_closes_channel_and_panics :
    (okDelegate.Watch alice none world0).1 = (some (watchOf okDelegate), none) ∧
    (run okDelegate [.stop] (watchOf okDelegate, world0)).1.w.ch.closed = true ∧
    (run okDelegate [.stop] (watchOf okDelegate, world0)).1.closes = [.consumer] ∧
    (run okDelegate [.stop, .stop] (watchOf okDelegate, world0)).1.panic
      = some "close of closed channel" ∧
    (run okDelegate [.task, .task, .stop, .task] (watchOf okDelegate, world0)).1.panic
      = some "send on closed channel" ∧
    (run okDelegate [.task, .stop, .task, .task] (watchOf okDelegate, world0)).1.panic
      = some "send on closed channel" ∧
    watcher.Stop { ch := { closed := true } } = .panicked "close of closed channel" := by
  refine ⟨rfl, rfl, rfl, ?_, ?_, ?_, rfl⟩ <;> decide

/-- C4, evaluated where it fails: after the producer has sent its two events
and closed the feed, and the consumer has read both without calling
`Stop()`, the goroutine has returned and the outbound channel is still open:
nobody has closed it, the consumer has not seen the end of the stream, and
its next receive blocks. The same holds for a feed that is closed at once
(the store double of `okDelegate` with no events is `emptyFeedDelegate`). -/
theorem Watch_feed_end_leaves_channel_open :
    (run okDelegate (.task :: deliverAll 2) (watchOf okDelegate, world0)).1
      = { watchOf okDelegate with
          pc := .returned
          received := [{ type := "ADDED", Object := .ofT 1 },
            { type := "MODIFIED", Object := .ofT 2 }] } ∧
    (run okDelegate (.task :: deliverAll 2) (watchOf okDelegate, world0)).1.w.ch.closed
      = false ∧
    (run okDelegate (.task :: deliverAll 2) (watchOf okDelegate, world0)).1.closes = [] ∧
    (run okDelegate (.task :: deliverAll 2) (watchOf okDelegate, world0)).1.endOfStream
      = false ∧
    (step okDelegate .recv (run okDelegate (.task :: deliverAll 2) (watchOf okDelegate, world0)).1
      (run okDelegate (.task :: deliverAll 2) (watchOf okDelegate, world0)).2).isNone = true ∧
    (run emptyFeedDelegate [.task, .task, .recv] (watchOf emptyFeedDelegate, world0)).1
      = { watchOf emptyFeedDelegate with pc := .returned } := by
  refine ⟨?_, ?_, ?_, ?_, ?_, ?_⟩ <;> decide

/-! ## Options that are not used -/

/-- C10: with identity present, Watch returns the same handle and starts the
same goroutine for any two `options` values; the step in which the goroutine
calls the store logs `store.Watch` with the built context and an empty
external ListOptions value, and in every run of the watch the goroutine
makes this call and no other, so both watches see the same feed and run
alike. Likewise the calls of `store.Get` that Update makes, whatever its
arguments, are exactly one call with the built context, the name and an
empty GetOptions value. -/
theorem Watch_ignores_options (s : delegate T TList σ) (parentCtx : ParentContext)
    (u : UserInfo) (hid : parentCtx.user = some u) (o1 o2 : Option InternalListOptions)
    (w : World T TList σ) :
    s.Watch parentCtx o1 w = s.Watch parentCtx o2 w ∧
    s.Watch parentCtx o1 w
      = ((some (Bridge.fresh T TList (builtContext s parentCtx)), none), w) ∧
    (∀ w1 : World T TList σ,
      (stepTask s (Bridge.fresh T TList (builtContext s parentCtx)) w1).map (fun y => y.2.calls)
        = some (w1.calls ++ [.storeWatch (builtContext s parentCtx) (some {})])) ∧
    (∀ sched : List Action,
      (run s sched (Bridge.fresh T TList (builtContext s parentCtx), w)).2.calls = w.calls ∨
      (run s sched (Bridge.fresh T TList (builtContext s parentCtx), w)).2.calls
        = w.calls ++ [.storeWatch (builtContext s parentCtx) (some {})]) ∧
    (∀ (name : String) (objInfo : Option (UpdatedObjectInfo T TList σ))
        (createValidation : Option (ValidateObjectFunc T TList σ))
        (updateValidation : Option (ValidateObjectUpdateFunc T TList σ))
        (forceAllowCreate : Bool) (options : Option UpdateOptions),
      ((s.Update parentCtx name objInfo createValidation updateValidation forceAllowCreate
          options w).2.calls.drop w.calls.length).filter Call.isStoreGet
        = [.storeGet (builtContext s parentCtx) name (some {})]) := by
  have hm := makeContext_of_user s parentCtx u hid
  refine ⟨by simp only [delegate.Watch, hm], by simp only [delegate.Watch, hm], ?_, ?_, ?_⟩
  · intro w1
    rcases hr : s.store.Watch (builtContext s parentCtx) (some {}) w1.state
      with ⟨⟨f, _ | e⟩, st⟩ <;>
      simp [stepTask, Bridge.fresh, World.storeWatch, hr]
  · intro sched
    exact run_calls s (builtContext s parentCtx) w.calls sched _ rfl (Or.inl ⟨rfl, rfl⟩)
  · intro name objInfo createValidation updateValidation forceAllowCreate options
    rcases hg : s.store.Get (builtContext s parentCtx) name (some {}) w.state
      with ⟨⟨old, _ | e⟩, st1⟩
    · rcases objInfo with _ | info
      · simp [delegate.Update, hm, World.storeGet, hg, Call.isStoreGet]
      · rcases hi : info (builtContext s parentCtx) (.ofT old) st1 with ⟨⟨newObj, _ | e⟩, st2⟩
        · rcases newObj with _ | newT | l | tag
          · simp [delegate.Update, hm, World.storeGet, hg, World.callUpdatedObject, hi,
              Call.isStoreGet]
          · rcases updateValidation with _ | f
            · rcases hu : s.store.Update (builtContext s parentCtx) newT options st2
                with ⟨⟨x, _ | e⟩, st4⟩ <;>
                simp [delegate.Update, hm, World.storeGet, hg, World.callUpdatedObject, hi,
                  World.storeUpdate, hu, Call.isStoreGet]
            · rcases hv : f (builtContext s parentCtx) (.ofT newT) (.ofT old) st2
                with ⟨_ | e, st3⟩
              · rcases hu : s.store.Update (builtContext s parentCtx) newT options st3
                  with ⟨⟨x, _ | e⟩, st4⟩ <;>
                  simp [delegate.Update, hm, World.storeGet, hg, World.callUpdatedObject, hi,
                    World.callUpdateValidation, hv, World.storeUpdate, hu, Call.isStoreGet]
              · simp [delegate.Update, hm, World.storeGet, hg, World.callUpdatedObject, hi,
                  World.callUpdateValidation, hv, Call.isStoreGet]
          · simp [delegate.Update, hm, World.storeGet, hg, World.callUpdatedObject, hi,
              Call.isStoreGet]
          · simp [delegate.Update, hm, World.storeGet, hg, World.callUpdatedObject, hi,
              Call.isStoreGet]
        · simp [delegate.Update, hm, World.storeGet, hg, World.callUpdatedObject, hi,
            Call.isStoreGet]
    · simp [delegate.Update, hm, World.storeGet, hg, Call.isStoreGet]

theorem Watch_ignores_options_witness :
    alice.user = some { name := "alice" } ∧
    okDelegate.Watch alice (some { LabelSelector := some "app=web", Limit := 5 }) world0
      = okDelegate.Watch alice none world0 ∧
    ((okDelegate.Update alice "tok" (some fun _ old n => ((old, none), n)) none none false
        (some { FieldManager := "kubectl" }) world0).2.calls.drop world0.calls.length).filter
        Call.isStoreGet
      = [.storeGet (builtContext okDelegate alice) "tok" (some {})] :=
  have h := Watch_ignores_options okDelegate alice { name := "alice" } rfl
    (some { LabelSelector := some "app=web", Limit := 5 }) none world0
  ⟨rfl, h.1,
    h.2.2.2.2 "tok" (some fun _ old n => ((old, none), n)) none none false
      (some { FieldManager := "kubectl" })⟩

end Ext
